import Mathlib

/-!
Verification of the StatMaster timesheet analysis logic
(`statmaster_logic.py`): the text-to-record interval parser, the monthly
aggregation, the comparison merge and the filename slugging rules.

Conventions of the embedding:
* Python `float` arithmetic on hour quantities is modelled over `ℚ`
  (every quantity involved is an exact sum/quotient of small integers).
* Python `datetime.date` / `datetime.datetime` values are modelled by
  `Date` / `DateTime`; `date.toordinal` is the proleptic Gregorian ordinal
  and datetime comparison/subtraction goes through absolute minutes
  (`toMinutes`), exactly as in CPython.  Adding `timedelta(days=1)` to a
  datetime on the last representable day (9999-12-31) raises
  `OverflowError` in CPython; the parser model reproduces this as an
  `Except.error` carrying `dateOverflowMsg`.
* A line of the extracted text is abstracted to what the two regexes of
  `parse_pdf_to_dataframe` find on it (`PLine`).
* Python strings are Lean `String`s; Python string comparison is
  code-point lexicographic, modelled by `charListLt` on `String.data`.
-/

/-- Decidable equality of `Except` results (needed to evaluate the parser on
concrete inputs inside proofs). -/
instance {ε : Type u} {α : Type v} [DecidableEq ε] [DecidableEq α] :
    DecidableEq (Except ε α) := fun x y =>
  match x, y with
  | .error a, .error b =>
    if h : a = b then isTrue (by rw [h]) else isFalse (by simp [h])
  | .error _, .ok _ => isFalse (by simp)
  | .ok _, .error _ => isFalse (by simp)
  | .ok a, .ok b =>
    if h : a = b then isTrue (by rw [h]) else isFalse (by simp [h])

namespace Statmaster

/-- Calendar date (as produced by `datetime.strptime(s, "%d/%m/%Y").date()`). -/
structure Date where
  year : Nat
  month : Nat
  day : Nat
deriving DecidableEq

/-- Gregorian leap-year rule, as used by Python `calendar.isleap`. -/
def isLeap (y : Nat) : Bool :=
  (y % 4 == 0 && y % 100 != 0) || y % 400 == 0

/-- Number of days of month `m` of year `y`: `calendar.monthrange(y, m)[1]`.
`monthrange` raises `IllegalMonthError` outside `1..12`; every use in the
program has `1 ≤ m ≤ 12`, the catch-all arm returns 0. -/
def daysInMonth (y m : Nat) : Nat :=
  if m = 1 then 31
  else if m = 2 then (if isLeap y then 29 else 28)
  else if m = 3 then 31
  else if m = 4 then 30
  else if m = 5 then 31
  else if m = 6 then 30
  else if m = 7 then 31
  else if m = 8 then 31
  else if m = 9 then 30
  else if m = 10 then 31
  else if m = 11 then 30
  else if m = 12 then 31
  else 0

/-- Acceptance condition of `datetime.strptime(s, "%d/%m/%Y")` on a token the
date regex matched: day and month form a valid Gregorian date and the year
(a 4-digit field) is at least `datetime.MINYEAR = 1`. -/
def Date.valid (d : Date) : Prop :=
  1 ≤ d.year ∧ d.year ≤ 9999 ∧ 1 ≤ d.month ∧ d.month ≤ 12 ∧
    1 ≤ d.day ∧ d.day ≤ daysInMonth d.year d.month

instance (d : Date) : Decidable d.valid := by
  unfold Date.valid; infer_instance

/-- The calendar day after `d` (effect of `+ timedelta(days=1)` on the date
part of a datetime holding a valid date). -/
def nextDay (d : Date) : Date :=
  if d.day < daysInMonth d.year d.month then ⟨d.year, d.month, d.day + 1⟩
  else if d.month < 12 then ⟨d.year, d.month + 1, 1⟩
  else ⟨d.year + 1, 1, 1⟩

/-- Cumulative number of days strictly before month `m` in year `y`. -/
def daysBeforeMonth (y m : Nat) : Nat :=
  (if m = 1 then 0
   else if m = 2 then 31
   else if m = 3 then 59
   else if m = 4 then 90
   else if m = 5 then 120
   else if m = 6 then 151
   else if m = 7 then 181
   else if m = 8 then 212
   else if m = 9 then 243
   else if m = 10 then 273
   else if m = 11 then 304
   else if m = 12 then 334
   else 365)
  + (if 3 ≤ m ∧ isLeap y = true then 1 else 0)

/-- Python `date.toordinal`: proleptic Gregorian ordinal, `0001-01-01 ↦ 1`. -/
def toOrdinal (d : Date) : Nat :=
  (d.year - 1) * 365 + (d.year - 1) / 4 - (d.year - 1) / 100 + (d.year - 1) / 400
    + daysBeforeMonth d.year d.month + d.day

/-- Python `datetime.datetime` restricted to minute precision (the parser only
ever builds times from hour/minute pairs). -/
structure DateTime where
  date : Date
  hour : Nat
  minute : Nat
deriving DecidableEq

/-- Absolute position on the timeline, in minutes; CPython compares and
subtracts datetimes through exactly this quantity. -/
def toMinutes (t : DateTime) : Nat :=
  toOrdinal t.date * 1440 + t.hour * 60 + t.minute

/-- One record appended by `parse_pdf_to_dataframe` (dict keys `date`,
`start`, `end`, `hours`; the `end` key is a Lean keyword, rendered `stop`). -/
structure TimeInterval where
  date : Date
  start : DateTime
  stop : DateTime
  hours : ℚ
deriving DecidableEq

/-- One line of the extracted text, abstracted to what the two regexes find:
`dateTok` is the first match of `date_re = (\d{1,2}/\d{1,2}/\d{4})` as
(day, month, year); `timeTok` is the first match of
`time_re = \b(\d{1,2}),\s*(\d{1,2})\s+(\d{1,2}),\s*(\d{1,2})\b` as
(sh, sm, eh, em). -/
structure PLine where
  dateTok : Option (Nat × Nat × Nat)
  timeTok : Option (Nat × Nat × Nat × Nat)
deriving DecidableEq

/-- Message of the `ValueError` raised when no record was recognized. -/
def noRecordsMsg : String :=
  "Nessuna timbratura riconosciuta nel PDF. Il parser \xe8 stato cucito sul formato \x27Calendario Periodico Lavori\x27, ma non ha trovato righe con data + orari."

/-- Message of the `OverflowError` CPython raises when `+ timedelta(days=1)`
leaves the representable date range (only possible from 9999-12-31). -/
def dateOverflowMsg : String :=
  "date value out of range"

/-- One iteration of the `for line in lines` loop of
`parse_pdf_to_dataframe`: date check first (`continue` on a match, cursor set
on `strptime` success and cleared to `None` on `ValueError`), then the
current-date guard, the time-pair search, the hour/minute range check, the
midnight rollover and the record construction. -/
def parseStep (cur : Option Date) (ln : PLine) :
    Except String (Option Date × Option TimeInterval) :=
  match ln.dateTok with
  | some (d, m, y) =>
    if (Date.mk y m d).valid then .ok (some ⟨y, m, d⟩, none) else .ok (none, none)
  | none =>
    match cur with
    | none => .ok (none, none)
    | some cd =>
      match ln.timeTok with
      | none => .ok (some cd, none)
      | some (sh, sm, eh, em) =>
        if sh < 24 ∧ eh < 24 ∧ sm < 60 ∧ em < 60 then
          let start_dt : DateTime := ⟨cd, sh, sm⟩
          let end0 : DateTime := ⟨cd, eh, em⟩
          if toMinutes end0 < toMinutes start_dt then
            if cd = ⟨9999, 12, 31⟩ then .error dateOverflowMsg
            else
              let end_dt : DateTime := ⟨nextDay cd, eh, em⟩
              let hours : ℚ :=
                (((toMinutes end_dt : ℤ) - (toMinutes start_dt : ℤ) : ℤ) : ℚ) / 60
              .ok (some cd, some ⟨cd, start_dt, end_dt, hours⟩)
          else
            let hours : ℚ :=
              (((toMinutes end0 : ℤ) - (toMinutes start_dt : ℤ) : ℤ) : ℚ) / 60
            .ok (some cd, some ⟨cd, start_dt, end0, hours⟩)
        else .ok (some cd, none)

/-- The full line scan, threading the `current_date` cursor and accumulating
the record list in input order. -/
def parseLinesAux : Option Date → List PLine → Except String (List TimeInterval)
  | _, [] => .ok []
  | cur, ln :: rest =>
    match parseStep cur ln with
    | .error e => .error e
    | .ok (cur2, none) => parseLinesAux cur2 rest
    | .ok (cur2, some r) =>
      match parseLinesAux cur2 rest with
      | .error e => .error e
      | .ok rs => .ok (r :: rs)

/-- The parser `parse_pdf_to_dataframe` (text extraction abstracted away):
scan all lines, then raise `ValueError(noRecordsMsg)` when no record was
produced. -/
def parse_pdf_to_dataframe (lines : List PLine) : Except String (List TimeInterval) :=
  match parseLinesAux none lines with
  | .error e => .error e
  | .ok records => if records.isEmpty then .error noRecordsMsg else .ok records

/-- A line whose time-pair token exists and passes the range check
`0 <= h < 24`, `0 <= m < 60` of both pairs. -/
def validTimeTok (ln : PLine) : Bool :=
  match ln.timeTok with
  | none => false
  | some (sh, sm, eh, em) => decide (sh < 24 ∧ eh < 24 ∧ sm < 60 ∧ em < 60)

/-- One row of the `monthly_df` DataFrame built by `compute_monthly_stats`. -/
structure MonthlyStat where
  year : Nat
  month : Nat
  month_label : String
  days_worked : Nat
  hours_worked : ℚ
  theoretical_hours : ℚ
  overtime : ℚ
  avg_hours_per_day : ℚ
  days_in_month : Nat
deriving DecidableEq

/-- The `summary` dict built by `compute_monthly_stats`. -/
structure Summary where
  period_start : Date
  period_end : Date
  period_label : String
  total_hours_worked : ℚ
  total_theoretical_hours : ℚ
  total_overtime : ℚ
  avg_monthly_hours : ℚ
  monthly_count : Nat
deriving DecidableEq

/-- Chronological order on dates ((year, month, day) lexicographic), the
order pandas uses on a datetime column. -/
def dateLe (a b : Date) : Prop :=
  a.year < b.year ∨ (a.year = b.year ∧
    (a.month < b.month ∨ (a.month = b.month ∧ a.day ≤ b.day)))

instance : DecidableRel dateLe := fun a b => by
  unfold dateLe; infer_instance

instance : IsTotal Date dateLe :=
  ⟨by intro a b; unfold dateLe; omega⟩

instance : IsTrans Date dateLe :=
  ⟨by intro a b c; unfold dateLe; omega⟩

/-- Lexicographic order on (year, month) keys, the order of
`groupby(["year", "month"])` and of `sort_values(["year", "month"])`. -/
def ymLe (a b : Nat × Nat) : Prop :=
  a.1 < b.1 ∨ (a.1 = b.1 ∧ a.2 ≤ b.2)

instance : DecidableRel ymLe := fun a b => by
  unfold ymLe; infer_instance

instance : IsTotal (Nat × Nat) ymLe :=
  ⟨by intro a b; unfold ymLe; omega⟩

instance : IsTrans (Nat × Nat) ymLe :=
  ⟨by intro a b c; unfold ymLe; omega⟩

/-- Python f-string `f"{month:02d}/{year}"`. -/
def monthLabel (y m : Nat) : String :=
  (if m < 10 then "0" ++ toString m else toString m) ++ "/" ++ toString y

/-- Zero-padding to width 2 (`%02d`, and `%d`/`%m` of `strftime`). -/
def pad2 (n : Nat) : String :=
  if n < 10 then "0" ++ toString n else toString n

/-- Zero-padding to width 4 (`%Y` of CPython `strftime`). -/
def pad4 (n : Nat) : String :=
  if n < 10 then "000" ++ toString n
  else if n < 100 then "00" ++ toString n
  else if n < 1000 then "0" ++ toString n
  else toString n

/-- Python `d.strftime("%d/%m/%Y")`. -/
def dateLabel (d : Date) : String :=
  pad2 d.day ++ "/" ++ pad2 d.month ++ "/" ++ pad4 d.year

/-- The per-day aggregation `df.groupby("date")["hours"].sum()`: distinct
dates in chronological order, each with the sum of its interval hours. -/
def dailyTotals (df : List TimeInterval) : List (Date × ℚ) :=
  let dates := List.insertionSort dateLe (df.map (fun r => r.date)).dedup
  dates.map (fun d => (d, ((df.filter (fun r => r.date = d)).map (fun r => r.hours)).sum))

/-- The sorted distinct (year, month) keys of the daily table, i.e. the group
keys of `daily.groupby(["year", "month"])`. -/
def monthKeys (daily : List (Date × ℚ)) : List (Nat × Nat) :=
  List.insertionSort ymLe ((daily.map (fun p => (p.1.year, p.1.month))).dedup)

/-- The row `compute_monthly_stats` appends to `monthly_rows` for group
key (y, m). -/
def buildStat (daily : List (Date × ℚ)) (weekly_hours : ℚ) (y m : Nat) : MonthlyStat :=
  let group := daily.filter (fun p => p.1.year = y ∧ p.1.month = m)
  let hours_worked : ℚ := (group.map (fun p => p.2)).sum
  let days_worked : Nat := (group.map (fun p => p.1)).dedup.length
  let dim := daysInMonth y m
  let theoretical_hours : ℚ := weekly_hours * ((dim : ℚ) / 7)
  { year := y
    month := m
    month_label := monthLabel y m
    days_worked := days_worked
    hours_worked := hours_worked
    theoretical_hours := theoretical_hours
    overtime := hours_worked - theoretical_hours
    avg_hours_per_day := if days_worked > 0 then hours_worked / (days_worked : ℚ) else 0
    days_in_month := dim }

/-- The aggregator `compute_monthly_stats(df, weekly_hours)`: per-day sums,
per-month rows sorted by (year, month), then the overall summary. -/
def compute_monthly_stats (df : List TimeInterval) (weekly_hours : ℚ) :
    Summary × List MonthlyStat :=
  let daily := dailyTotals df
  let monthly := (monthKeys daily).map (fun k => buildStat daily weekly_hours k.1 k.2)
  let total_hours_worked : ℚ := (monthly.map (fun s => s.hours_worked)).sum
  let total_theoretical_hours : ℚ := (monthly.map (fun s => s.theoretical_hours)).sum
  let total_overtime : ℚ := total_hours_worked - total_theoretical_hours
  let avg_monthly_hours : ℚ :=
    if monthly.length > 0 then total_hours_worked / (monthly.length : ℚ) else 0
  let period_start := (daily.map (fun p => p.1)).headD ⟨1, 1, 1⟩
  let period_end := (daily.map (fun p => p.1)).getLastD ⟨1, 1, 1⟩
  ({ period_start := period_start
     period_end := period_end
     period_label := dateLabel period_start ++ " - " ++ dateLabel period_end
     total_hours_worked := total_hours_worked
     total_theoretical_hours := total_theoretical_hours
     total_overtime := total_overtime
     avg_monthly_hours := avg_monthly_hours
     monthly_count := monthly.length }, monthly)

/-- Python `c.isspace()` (correct for all code points below U+0100; the
program only ever meets it through `str.strip`). -/
def pyIsSpace (c : Char) : Bool :=
  (9 ≤ c.toNat && c.toNat ≤ 13) || c.toNat = 32 ||
    (28 ≤ c.toNat && c.toNat ≤ 31) || c.toNat = 0x85 || c.toNat = 0xA0

/-- Python `c.isalnum()` (correct for all code points below U+0100, i.e. on
ASCII and the Latin-1 Supplement: digits, ASCII letters, the Latin-1 letters
and the Latin-1 numeric signs; for larger code points this model returns
`false` and no theorem below evaluates it there). -/
def pyIsAlnum (c : Char) : Bool :=
  (48 ≤ c.toNat && c.toNat ≤ 57) || (65 ≤ c.toNat && c.toNat ≤ 90) ||
    (97 ≤ c.toNat && c.toNat ≤ 122) ||
    c.toNat = 0xAA || c.toNat = 0xB5 || c.toNat = 0xBA ||
    c.toNat = 0xB2 || c.toNat = 0xB3 || c.toNat = 0xB9 ||
    (0xBC ≤ c.toNat && c.toNat ≤ 0xBE) ||
    (0xC0 ≤ c.toNat && c.toNat ≤ 0xD6) || (0xD8 ≤ c.toNat && c.toNat ≤ 0xF6) ||
    (0xF8 ≤ c.toNat && c.toNat ≤ 0xFF)

/-- Membership in the regex character class `[a-zA-Z0-9_-]`. -/
def isSafeChar (c : Char) : Bool :=
  (48 ≤ c.toNat && c.toNat ≤ 57) || (65 ≤ c.toNat && c.toNat ≤ 90) ||
    (97 ≤ c.toNat && c.toNat ≤ 122) || c.toNat = 95 || c.toNat = 45

/-- Python `str.strip()`: drop whitespace from both ends. -/
def pyStrip (l : List Char) : List Char :=
  ((l.dropWhile pyIsSpace).reverse.dropWhile pyIsSpace).reverse

/-- Scan for `re.sub(r"[^a-zA-Z0-9_-]+", "_", s)`: the flag records whether
the previous character was part of a run of characters outside the class
(a run is replaced by a single underscore when it starts). -/
def regexSubAux : Bool → List Char → List Char
  | _, [] => []
  | inRun, c :: cs =>
    if isSafeChar c then c :: regexSubAux false cs
    else if inRun then regexSubAux true cs
    else '_' :: regexSubAux true cs

/-- Python `re.sub(r"[^a-zA-Z0-9_-]+", "_", s)`: every maximal run of
characters outside the class is replaced by a single underscore. -/
def regexSub (l : List Char) : List Char :=
  regexSubAux false l

/-- The single-employee filename rule of `analyze_pdf`:
`re.sub(r"[^a-zA-Z0-9_-]+", "_", employee_name.strip()) or "dipendente"`. -/
def safeName (employee_name : String) : String :=
  let subbed := regexSub (pyStrip employee_name.data)
  if subbed.isEmpty then "dipendente" else String.mk subbed

/-- The period tag of `analyze_pdf`:
`period_label.replace(" ", "").replace("/", "-").replace(":", "-")`. -/
def periodTag (label : String) : String :=
  String.mk ((label.data.filter (fun c => c ≠ ' ')).map
    (fun c => if c = '/' ∨ c = ':' then '-' else c))

/-- The report filename `f"Report_{safe_name}_{period_tag}.pdf"`. -/
def report_filename (employee_name : String) (summary : Summary) : String :=
  "Report_" ++ safeName employee_name ++ "_" ++ periodTag summary.period_label ++ ".pdf"

/-- The core pipeline of `analyze_pdf` (PDF reading and report rendering are
external collaborators): parse, aggregate, build the artifact name. -/
def analyze_pdf (lines : List PLine) (employee_name : String) (weekly_hours : ℚ) :
    Except String (String × Summary) :=
  match parse_pdf_to_dataframe lines with
  | .error e => .error e
  | .ok df =>
    let res := compute_monthly_stats df weekly_hours
    .ok (report_filename employee_name res.1, res.1)

/-- The comparison slug `_slugify_name`: keep alphanumerics (Python
`str.isalnum`), underscore and hyphen of the stripped name, replace every
other character by an underscore, default to `"dipendente"`. -/
def slugify_name (name : String) : String :=
  let cleaned := (pyStrip name.data).map
    (fun c => if pyIsAlnum c || c = '_' || c = '-' then c else '_')
  if cleaned.isEmpty then "dipendente" else String.mk cleaned

/-- The comparison artifact name `_build_comparison_filename`. -/
def build_comparison_filename (name1 name2 : String) : String :=
  "Confronto_" ++ slugify_name name1 ++ "_vs_" ++ slugify_name name2 ++ ".pdf"

/-- Python string `<` on code-point sequences (lexicographic). -/
def charListLt : List Char → List Char → Bool
  | [], [] => false
  | [], _ :: _ => true
  | _ :: _, [] => false
  | a :: as, b :: bs =>
    if a.toNat < b.toNat then true
    else if b.toNat < a.toNat then false
    else charListLt as bs

/-- Python string comparison `a <= b`, as used by `sorted` on month labels. -/
def strLe (a b : String) : Prop :=
  charListLt b.data a.data = false

instance : DecidableRel strLe := fun a b => by
  unfold strLe; infer_instance

/-- The comparison merge `_merge_monthly_data`: the sorted union of the two
month-label sets and the four label-indexed dictionaries. -/
def merge_monthly_data (df1 df2 : List MonthlyStat) :
    List String × List (String × ℚ) × List (String × ℚ) ×
      List (String × ℚ) × List (String × ℚ) :=
  let labels1 := df1.map (fun r => r.month_label)
  let labels2 := df2.map (fun r => r.month_label)
  let labels := List.insertionSort strLe ((labels1 ++ labels2).dedup)
  let h1 := df1.map (fun r => (r.month_label, r.hours_worked))
  let o1 := df1.map (fun r => (r.month_label, r.overtime))
  let h2 := df2.map (fun r => (r.month_label, r.hours_worked))
  let o2 := df2.map (fun r => (r.month_label, r.overtime))
  (labels, h1, o1, h2, o2)

/-- Lookup in a dict built from an association list (later bindings win, as
in a Python dict comprehension) with `.get(key, 0.0)` default. -/
def dictGet (l : List (String × ℚ)) (k : String) : ℚ :=
  (List.lookup k l.reverse).getD 0

/-- The core pipeline of `analyze_two_pdfs_comparison` (rendering external):
parse and aggregate both employees independently, build the artifact name. -/
def analyze_two_pdfs_comparison
    (lines1 : List PLine) (employee1_name : String) (weekly_hours1 : ℚ)
    (lines2 : List PLine) (employee2_name : String) (weekly_hours2 : ℚ) :
    Except String (String × Summary × Summary) :=
  match parse_pdf_to_dataframe lines1 with
  | .error e => .error e
  | .ok df1 =>
    let res1 := compute_monthly_stats df1 weekly_hours1
    match parse_pdf_to_dataframe lines2 with
    | .error e => .error e
    | .ok df2 =>
      let res2 := compute_monthly_stats df2 weekly_hours2
      .ok (build_comparison_filename employee1_name employee2_name, res1.1, res2.1)

/-! ### Calendar lemmas -/

theorem isLeap_iff (y : Nat) :
    isLeap y = true ↔ ((y % 4 = 0 ∧ y % 100 ≠ 0) ∨ y % 400 = 0) := by
  simp [isLeap, Bool.or_eq_true, Bool.and_eq_true, beq_iff_eq, bne_iff_ne]

theorem daysBeforeMonth_succ (y m : Nat) (h1 : 1 ≤ m) (h2 : m ≤ 11) :
    daysBeforeMonth y (m + 1) = daysBeforeMonth y m + daysInMonth y m := by
  cases hL : isLeap y <;> interval_cases m <;>
    simp [daysBeforeMonth, daysInMonth, hL]

set_option maxHeartbeats 1000000 in
theorem toOrdinal_nextDay (d : Date) (h : d.valid) :
    toOrdinal (nextDay d) = toOrdinal d + 1 := by
  obtain ⟨y, m, day⟩ := d
  simp only [Date.valid] at h
  obtain ⟨hy1, hy2, hm1, hm2, hd1, hd2⟩ := h
  clear hy2
  simp only [nextDay]
  split_ifs with h1 h2
  · simp only [toOrdinal]
    omega
  · have hday : day = daysInMonth y m := by omega
    subst hday
    simp only [toOrdinal]
    rw [daysBeforeMonth_succ y m hm1 (by omega)]
    omega
  · have hm : m = 12 := by omega
    subst hm
    have hdim : daysInMonth y 12 = 31 := by simp [daysInMonth]
    rw [hdim] at h1 hd2
    have hday : day = 31 := by omega
    subst hday
    have hB1 : daysBeforeMonth (y + 1) 1 = 0 := by simp [daysBeforeMonth]
    have hB12 : daysBeforeMonth y 12 = 334 + (if isLeap y = true then 1 else 0) := by
      simp [daysBeforeMonth]
    have hleap := isLeap_iff y
    simp only [toOrdinal, hB1, hB12]
    by_cases hL : isLeap y = true
    · rw [if_pos hL]
      rw [hleap] at hL
      omega
    · rw [if_neg hL]
      rw [hleap] at hL
      push_neg at hL
      omega

/-! ### Parser lemmas -/

theorem parseStep_skip (cur : Option Date) (ln : PLine)
    (h1 : ln.dateTok = none) (h2 : validTimeTok ln = false) :
    parseStep cur ln = .ok (cur, none) := by
  unfold parseStep
  rw [h1]
  cases cur with
  | none => rfl
  | some cd =>
    rcases htt : ln.timeTok with - | ⟨sh, sm, eh, em⟩
    · rfl
    · simp only [validTimeTok, htt, decide_eq_false_iff_not] at h2
      simp only [if_neg h2]

theorem parseLinesAux_skip (ln : PLine)
    (h1 : ln.dateTok = none) (h2 : validTimeTok ln = false) :
    ∀ (pre : List PLine) (cur : Option Date) (post : List PLine),
      parseLinesAux cur (pre ++ ln :: post) = parseLinesAux cur (pre ++ post)
  | [], cur, post => by
    simp only [List.nil_append, parseLinesAux]
    rw [parseStep_skip cur ln h1 h2]
  | p :: pre, cur, post => by
    simp only [List.cons_append, parseLinesAux]
    rcases hstep : parseStep cur p with e | ⟨c2, rec?⟩
    · rfl
    · cases rec? with
      | none =>
        dsimp only
        simp only [List.append_eq]
        exact parseLinesAux_skip ln h1 h2 pre c2 post
      | some r =>
        dsimp only
        simp only [List.append_eq]
        rw [parseLinesAux_skip ln h1 h2 pre c2 post]

theorem parseStep_date (cur : Option Date) (ln : PLine) (d m y : Nat)
    (h : ln.dateTok = some (d, m, y)) :
    parseStep cur ln =
      .ok ((if (Date.mk y m d).valid then some (Date.mk y m d) else none), none) := by
  unfold parseStep
  simp only [h]
  split_ifs <;> rfl

/-- **C5** (amended): a line whose `date_re` matches (day, month, year) is
handled purely by the date branch — regardless of the cursor and of any
time-pair also present on the line it produces no interval, and the cursor
becomes that date when `strptime` accepts it and unset when it does not. -/
theorem C5_date_precedence (cur : Option Date) (ln : PLine) (d m y : Nat)
    (h : ln.dateTok = some (d, m, y)) :
    parseStep cur ln =
      .ok ((if (Date.mk y m d).valid then some (Date.mk y m d) else none), none) :=
  parseStep_date cur ln d m y h

/-- **C5** witness: a line carrying both the date token 02/01/2025 and a
time-pair token is treated purely as a date-setting line. -/
theorem C5_date_precedence_witness :
    parseStep (some ⟨2025, 3, 4⟩) ⟨some (2, 1, 2025), some (5, 30, 6, 30)⟩
      = .ok (some ⟨2025, 1, 2⟩, none) := by
  have h := C5_date_precedence (some ⟨2025, 3, 4⟩)
    ⟨some (2, 1, 2025), some (5, 30, 6, 30)⟩ 2 1 2025 rfl
  rw [if_pos (by decide)] at h
  exact h

/-- **C5** counterexample: the date token 31/02/2025 matches
`D{1,2}/D{1,2}/YYYY` but `strptime` rejects it, so the parser clears the
cursor to unset instead of setting that date as the claim states. -/
theorem C5_counterexample :
    parseStep (some ⟨2025, 1, 1⟩) ⟨some (31, 2, 2025), some (5, 30, 6, 30)⟩
        = .ok (none, none)
    ∧ parseStep (some ⟨2025, 1, 1⟩) ⟨some (31, 2, 2025), some (5, 30, 6, 30)⟩
        ≠ .ok (some ⟨2025, 2, 31⟩, none) := by
  exact ⟨by decide, by decide⟩

/-- **C6**: a line whose time-pair token has an hour outside [0,24) or a
minute outside [0,60) produces no interval and leaves the cursor unchanged
(no error is raised), and a line matching neither a date token nor a valid
time-pair token can be removed from the input without changing the result
of the scan from any cursor state. -/
theorem C6_invalid_time_skipped :
    (∀ (cur : Option Date) (ln : PLine) (sh sm eh em : Nat),
        ln.dateTok = none → ln.timeTok = some (sh, sm, eh, em) →
        ¬(sh < 24 ∧ eh < 24 ∧ sm < 60 ∧ em < 60) →
        parseStep cur ln = .ok (cur, none))
    ∧ (∀ (ln : PLine), ln.dateTok = none → validTimeTok ln = false →
        ∀ (cur : Option Date) (pre post : List PLine),
          parseLinesAux cur (pre ++ ln :: post) = parseLinesAux cur (pre ++ post)) := by
  constructor
  · intro cur ln sh sm eh em hdt htt hr
    apply parseStep_skip cur ln hdt
    simp only [validTimeTok, htt, decide_eq_false_iff_not]
    exact hr
  · intro ln hdt hvt cur pre post
    exact parseLinesAux_skip ln hdt hvt pre cur post

theorem toMinutes_lt_same_date (cd : Date) (sh sm eh em : Nat) :
    toMinutes ⟨cd, eh, em⟩ < toMinutes ⟨cd, sh, sm⟩ ↔ eh * 60 + em < sh * 60 + sm := by
  simp only [toMinutes]
  omega

theorem parseStep_time (cd : Date) (ln : PLine) (sh sm eh em : Nat)
    (hv : cd.valid)
    (hover : ¬(cd = ⟨9999, 12, 31⟩ ∧ eh * 60 + em < sh * 60 + sm))
    (hdt : ln.dateTok = none) (htt : ln.timeTok = some (sh, sm, eh, em))
    (h1 : sh < 24) (h2 : eh < 24) (h3 : sm < 60) (h4 : em < 60) :
    parseStep (some cd) ln = .ok (some cd, some
      { date := cd
        start := ⟨cd, sh, sm⟩
        stop := if eh * 60 + em < sh * 60 + sm then ⟨nextDay cd, eh, em⟩
                else ⟨cd, eh, em⟩
        hours := ((((eh * 60 + em : Nat) : ℤ)
            + (if eh * 60 + em < sh * 60 + sm then (1440 : ℤ) else 0)
            - ((sh * 60 + sm : Nat) : ℤ) : ℤ) : ℚ) / 60 }) := by
  unfold parseStep
  simp only [hdt, htt]
  rw [if_pos ⟨h1, h2, h3, h4⟩]
  by_cases hlt : eh * 60 + em < sh * 60 + sm
  · rw [if_pos ((toMinutes_lt_same_date cd sh sm eh em).mpr hlt)]
    rw [if_neg (fun hcd => hover ⟨hcd, hlt⟩)]
    rw [if_pos hlt, if_pos hlt]
    have hint : (toMinutes ⟨nextDay cd, eh, em⟩ : ℤ) - (toMinutes ⟨cd, sh, sm⟩ : ℤ)
        = ((eh * 60 + em : Nat) : ℤ) + (1440 : ℤ) - ((sh * 60 + sm : Nat) : ℤ) := by
      simp only [toMinutes]
      rw [toOrdinal_nextDay cd hv]
      push_cast
      ring
    rw [hint]
  · rw [if_neg (fun hm => hlt ((toMinutes_lt_same_date cd sh sm eh em).mp hm))]
    rw [if_neg hlt, if_neg hlt]
    have hint : (toMinutes ⟨cd, eh, em⟩ : ℤ) - (toMinutes ⟨cd, sh, sm⟩ : ℤ)
        = ((eh * 60 + em : Nat) : ℤ) + (0 : ℤ) - ((sh * 60 + sm : Nat) : ℤ) := by
      simp only [toMinutes]
      push_cast
      ring
    rw [hint]

/-- The invariant the scan keeps about `current_date`: when set, it is a
valid calendar date (it came from a successful `strptime`). -/
def goodCursor : Option Date → Prop
  | none => True
  | some d => d.valid

theorem parseStep_preserves (cur : Option Date) (ln : PLine)
    (cur2 : Option Date) (rec? : Option TimeInterval)
    (h : parseStep cur ln = .ok (cur2, rec?)) (hcur : goodCursor cur) :
    goodCursor cur2 ∧ ∀ r, rec? = some r →
      toMinutes r.start ≤ toMinutes r.stop ∧ 0 ≤ r.hours := by
  unfold parseStep at h
  rcases hdt : ln.dateTok with - | ⟨d, m, y⟩
  · simp only [hdt] at h
    cases cur with
    | none =>
      simp only [Except.ok.injEq, Prod.mk.injEq] at h
      obtain ⟨h1, h2⟩ := h
      subst h1
      subst h2
      exact ⟨trivial, fun r hr => Option.noConfusion hr⟩
    | some cd =>
      rcases htt : ln.timeTok with - | ⟨sh, sm, eh, em⟩
      · simp only [htt, Except.ok.injEq, Prod.mk.injEq] at h
        obtain ⟨h1, h2⟩ := h
        subst h1
        subst h2
        exact ⟨hcur, fun r hr => Option.noConfusion hr⟩
      · simp only [htt] at h
        by_cases hr4 : sh < 24 ∧ eh < 24 ∧ sm < 60 ∧ em < 60
        · rw [if_pos hr4] at h
          obtain ⟨hsh, heh, hsm, hem⟩ := hr4
          by_cases hlt : toMinutes ⟨cd, eh, em⟩ < toMinutes ⟨cd, sh, sm⟩
          · rw [if_pos hlt] at h
            by_cases hcd : cd = ⟨9999, 12, 31⟩
            · rw [if_pos hcd] at h
              exact Except.noConfusion h
            · rw [if_neg hcd] at h
              simp only [Except.ok.injEq, Prod.mk.injEq] at h
              obtain ⟨h1, h2⟩ := h
              subst h1
              subst h2
              refine ⟨hcur, fun r hr => ?_⟩
              injection hr with hr2
              subst hr2
              have hord := toOrdinal_nextDay cd hcur
              constructor
              · simp only [toMinutes, hord]
                omega
              · have hd : (0 : ℤ) ≤ (toMinutes ⟨nextDay cd, eh, em⟩ : ℤ)
                    - (toMinutes ⟨cd, sh, sm⟩ : ℤ) := by
                  simp only [toMinutes, hord]
                  omega
                exact div_nonneg (by exact_mod_cast hd) (by norm_num)
          · rw [if_neg hlt] at h
            simp only [Except.ok.injEq, Prod.mk.injEq] at h
            obtain ⟨h1, h2⟩ := h
            subst h1
            subst h2
            refine ⟨hcur, fun r hr => ?_⟩
            injection hr with hr2
            subst hr2
            have hge := Nat.le_of_not_lt hlt
            constructor
            · exact hge
            · have hd : (0 : ℤ) ≤ (toMinutes ⟨cd, eh, em⟩ : ℤ)
                  - (toMinutes ⟨cd, sh, sm⟩ : ℤ) := by omega
              exact div_nonneg (by exact_mod_cast hd) (by norm_num)
        · rw [if_neg hr4] at h
          simp only [Except.ok.injEq, Prod.mk.injEq] at h
          obtain ⟨h1, h2⟩ := h
          subst h1
          subst h2
          exact ⟨hcur, fun r hr => Option.noConfusion hr⟩
  · simp only [hdt] at h
    by_cases hv : (Date.mk y m d).valid
    · rw [if_pos hv] at h
      simp only [Except.ok.injEq, Prod.mk.injEq] at h
      obtain ⟨h1, h2⟩ := h
      subst h1
      subst h2
      exact ⟨hv, fun r hr => Option.noConfusion hr⟩
    · rw [if_neg hv] at h
      simp only [Except.ok.injEq, Prod.mk.injEq] at h
      obtain ⟨h1, h2⟩ := h
      subst h1
      subst h2
      exact ⟨trivial, fun r hr => Option.noConfusion hr⟩

theorem parseLinesAux_good : ∀ (lines : List PLine) (cur : Option Date),
    goodCursor cur → ∀ recs, parseLinesAux cur lines = .ok recs →
      ∀ r ∈ recs, toMinutes r.start ≤ toMinutes r.stop ∧ 0 ≤ r.hours
  | [], cur, _, recs, h => by
    simp only [parseLinesAux] at h
    injection h with h
    subst h
    intro r hr
    exact absurd hr (List.not_mem_nil r)
  | ln :: rest, cur, hcur, recs, h => by
    simp only [parseLinesAux] at h
    rcases hstep : parseStep cur ln with e | ⟨c2, rec?⟩
    · simp only [hstep] at h
      exact Except.noConfusion h
    · obtain ⟨hc2, hrec⟩ := parseStep_preserves cur ln c2 rec? hstep hcur
      cases rec? with
      | none =>
        simp only [hstep] at h
        exact parseLinesAux_good rest c2 hc2 recs h
      | some r0 =>
        simp only [hstep] at h
        rcases haux : parseLinesAux c2 rest with e | rs
        · simp only [haux] at h
          exact Except.noConfusion h
        · simp only [haux, Except.ok.injEq] at h
          subst h
          intro r hr
          rcases List.mem_cons.mp hr with rfl | hr
          · exact hrec r rfl
          · exact parseLinesAux_good rest c2 hc2 rs haux r hr

unseal Rat.add Rat.mul Rat.sub Rat.inv Rat.ofScientific in
/-- **C1** (amended): on a line with no date token, a time-pair token in
range, and the cursor set to a date `cd`, the parser appends exactly one
interval: start is `cd` at H:MM, end is `cd` at H2:MM2 moved to the next
calendar day (i.e. 24 h later) exactly when H2:MM2 < H:MM, and the hours are
the minute difference over 60 — except when `cd` is 9999-12-31 and the pair
crosses midnight, where CPython's date arithmetic overflows instead.  Every
interval an error-free scan produces satisfies end ≥ start and hours ≥ 0,
and date 01/01/2025 with pair 23,30 0,15 yields one interval of 0.75 h
ending on 02/01/2025. -/
theorem C1_timepair_interval :
    (∀ (cd : Date) (ln : PLine) (sh sm eh em : Nat),
        cd.valid → ¬(cd = ⟨9999, 12, 31⟩ ∧ eh * 60 + em < sh * 60 + sm) →
        ln.dateTok = none → ln.timeTok = some (sh, sm, eh, em) →
        sh < 24 → eh < 24 → sm < 60 → em < 60 →
        parseStep (some cd) ln = .ok (some cd, some
          { date := cd
            start := ⟨cd, sh, sm⟩
            stop := if eh * 60 + em < sh * 60 + sm then ⟨nextDay cd, eh, em⟩
                    else ⟨cd, eh, em⟩
            hours := ((((eh * 60 + em : Nat) : ℤ)
                + (if eh * 60 + em < sh * 60 + sm then (1440 : ℤ) else 0)
                - ((sh * 60 + sm : Nat) : ℤ) : ℤ) : ℚ) / 60 }))
    ∧ (∀ (lines : List PLine) (recs : List TimeInterval),
        parseLinesAux none lines = .ok recs →
        ∀ r ∈ recs, toMinutes r.start ≤ toMinutes r.stop ∧ 0 ≤ r.hours)
    ∧ parseLinesAux none [⟨some (1, 1, 2025), none⟩, ⟨none, some (23, 30, 0, 15)⟩]
        = .ok [{ date := ⟨2025, 1, 1⟩, start := ⟨⟨2025, 1, 1⟩, 23, 30⟩,
                 stop := ⟨⟨2025, 1, 2⟩, 0, 15⟩, hours := 3 / 4 }] := by
  refine ⟨?_, ?_, by decide⟩
  · intro cd ln sh sm eh em hv hover hdt htt h1 h2 h3 h4
    exact parseStep_time cd ln sh sm eh em hv hover hdt htt h1 h2 h3 h4
  · intro lines recs h
    exact parseLinesAux_good lines none trivial recs h

unseal Rat.add Rat.mul Rat.sub Rat.inv Rat.ofScientific in
/-- **C1** witness: date cursor 02/01/2025 with pair 5,30 13,30 produces the
single interval 5:30–13:30 of that day, 8 hours. -/
theorem C1_timepair_interval_witness :
    parseStep (some ⟨2025, 1, 2⟩) ⟨none, some (5, 30, 13, 30)⟩
      = .ok (some ⟨2025, 1, 2⟩, some
        { date := ⟨2025, 1, 2⟩, start := ⟨⟨2025, 1, 2⟩, 5, 30⟩,
          stop := ⟨⟨2025, 1, 2⟩, 13, 30⟩, hours := 8 }) := by
  have h := C1_timepair_interval.1 ⟨2025, 1, 2⟩ ⟨none, some (5, 30, 13, 30)⟩
    5 30 13 30 (by decide) (by decide) rfl rfl (by decide) (by decide)
    (by decide) (by decide)
  rw [h]
  decide

/-- **C1** counterexample: date 31/12/9999 with the midnight-crossing pair
23,30 0,15 makes `end_dt + timedelta(days=1)` overflow in CPython, so the
scan raises instead of producing the interval the claim promises. -/
theorem C1_counterexample :
    parseLinesAux none [⟨some (31, 12, 9999), none⟩, ⟨none, some (23, 30, 0, 15)⟩]
      = .error dateOverflowMsg := by
  decide

/-- **C6** witness: the out-of-range pair 25,00 5,00 on a dated line is
skipped silently, and removing such a line does not change the scan. -/
theorem C6_invalid_time_skipped_witness :
    parseStep (some ⟨2025, 1, 1⟩) ⟨none, some (25, 0, 5, 0)⟩
        = .ok (some ⟨2025, 1, 1⟩, none)
    ∧ parseLinesAux (some ⟨2025, 1, 1⟩)
        ([⟨none, some (5, 0, 6, 0)⟩] ++ ⟨none, some (25, 0, 5, 0)⟩ :: [⟨none, some (7, 0, 8, 0)⟩])
        = parseLinesAux (some ⟨2025, 1, 1⟩)
            ([⟨none, some (5, 0, 6, 0)⟩] ++ [⟨none, some (7, 0, 8, 0)⟩]) := by
  constructor
  · exact C6_invalid_time_skipped.1 (some ⟨2025, 1, 1⟩) ⟨none, some (25, 0, 5, 0)⟩
      25 0 5 0 rfl rfl (by omega)
  · exact C6_invalid_time_skipped.2 ⟨none, some (25, 0, 5, 0)⟩ rfl (by decide)
      (some ⟨2025, 1, 1⟩) [⟨none, some (5, 0, 6, 0)⟩] [⟨none, some (7, 0, 8, 0)⟩]

theorem parseStep_error_msg (cur : Option Date) (ln : PLine) (e : String)
    (h : parseStep cur ln = .error e) : e = dateOverflowMsg := by
  unfold parseStep at h
  rcases hdt : ln.dateTok with - | ⟨d, m, y⟩
  · simp only [hdt] at h
    cases cur with
    | none => exact Except.noConfusion h
    | some cd =>
      rcases htt : ln.timeTok with - | ⟨sh, sm, eh, em⟩
      · simp only [htt] at h
        exact Except.noConfusion h
      · simp only [htt] at h
        split_ifs at h
        injection h with h2
        exact h2.symm
  · simp only [hdt] at h
    split_ifs at h

theorem parseLinesAux_error_msg : ∀ (lines : List PLine) (cur : Option Date) (e : String),
    parseLinesAux cur lines = .error e → e = dateOverflowMsg
  | [], _, e, h => by
    simp only [parseLinesAux] at h
    exact Except.noConfusion h
  | ln :: rest, cur, e, h => by
    simp only [parseLinesAux] at h
    rcases hstep : parseStep cur ln with e2 | ⟨c2, rec?⟩
    · simp only [hstep] at h
      injection h with h2
      exact h2 ▸ parseStep_error_msg cur ln e2 hstep
    · cases rec? with
      | none =>
        simp only [hstep] at h
        exact parseLinesAux_error_msg rest c2 e h
      | some r0 =>
        simp only [hstep] at h
        rcases haux : parseLinesAux c2 rest with e2 | rs
        · simp only [haux] at h
          injection h with h2
          exact h2 ▸ parseLinesAux_error_msg rest c2 e2 haux
        · simp only [haux] at h
          exact Except.noConfusion h

theorem parseLinesAux_nil_of_all_invalid : ∀ (lines : List PLine) (cur : Option Date),
    (∀ ln ∈ lines, validTimeTok ln = false) → parseLinesAux cur lines = .ok []
  | [], _, _ => by simp [parseLinesAux]
  | ln :: rest, cur, hall => by
    simp only [parseLinesAux]
    have hstep : ∃ c2, parseStep cur ln = .ok (c2, none) := by
      rcases hdt : ln.dateTok with - | ⟨d, m, y⟩
      · exact ⟨cur, parseStep_skip cur ln hdt (hall ln (List.mem_cons_self ln rest))⟩
      · exact ⟨_, parseStep_date cur ln d m y hdt⟩
    obtain ⟨c2, hstep⟩ := hstep
    simp only [hstep]
    exact parseLinesAux_nil_of_all_invalid rest c2
      (fun l hl => hall l (List.mem_cons_of_mem ln hl))

theorem parseLinesAux_nil_of_no_date_before_time :
    ∀ (lines : List PLine),
      lines.Pairwise (fun a b => a.dateTok ≠ none → validTimeTok b = false) →
      parseLinesAux none lines = .ok []
  | [], _ => by simp [parseLinesAux]
  | ln :: rest, hp => by
    rw [List.pairwise_cons] at hp
    obtain ⟨hhead, htail⟩ := hp
    simp only [parseLinesAux]
    rcases hdt : ln.dateTok with - | ⟨d, m, y⟩
    · have hstep : parseStep none ln = .ok (none, none) := by
        unfold parseStep
        simp only [hdt]
      simp only [hstep]
      exact parseLinesAux_nil_of_no_date_before_time rest htail
    · have hstep := parseStep_date none ln d m y hdt
      simp only [hstep]
      apply parseLinesAux_nil_of_all_invalid
      intro l hl
      exact hhead l hl (by rw [hdt]; exact fun hc => Option.noConfusion hc)

/-- **C3**: the parser raises the no-records `ValueError` exactly when the
complete scan of the text produced zero intervals; in particular a text in
which no line with a date token precedes a line with a valid time-pair token
makes the single-employee analysis fail with that error, whose message names
the expected source format (Calendario Periodico Lavori). -/
theorem C3_no_records_error :
    (∀ lines : List PLine,
        parse_pdf_to_dataframe lines = .error noRecordsMsg
          ↔ parseLinesAux none lines = .ok [])
    ∧ (∀ (lines : List PLine) (employee_name : String) (weekly_hours : ℚ),
        lines.Pairwise (fun a b => a.dateTok ≠ none → validTimeTok b = false) →
        analyze_pdf lines employee_name weekly_hours = .error noRecordsMsg)
    ∧ noRecordsMsg = "Nessuna timbratura riconosciuta nel PDF. Il parser \xe8 stato cucito sul formato \x27Calendario Periodico Lavori\x27, ma non ha trovato righe con data + orari." := by
  refine ⟨?_, ?_, rfl⟩
  · intro lines
    constructor
    · intro h
      unfold parse_pdf_to_dataframe at h
      rcases haux : parseLinesAux none lines with e | records
      · simp only [haux] at h
        injection h with h2
        have := parseLinesAux_error_msg lines none e haux
        rw [h2] at this
        exact absurd this (by decide)
      · simp only [haux] at h
        by_cases he : records.isEmpty
        · rw [List.isEmpty_iff] at he
          rw [he]
        · rw [if_neg he] at h
          exact Except.noConfusion h
    · intro h
      unfold parse_pdf_to_dataframe
      simp only [h]
      rfl
  · intro lines employee_name weekly_hours hp
    have h0 := parseLinesAux_nil_of_no_date_before_time lines hp
    have hparse : parse_pdf_to_dataframe lines = .error noRecordsMsg := by
      unfold parse_pdf_to_dataframe
      simp only [h0]
      rfl
    unfold analyze_pdf
    simp only [hparse]

/-- **C3** witness: the empty text and a text whose only time-pair line
precedes its only date line both fail with the no-records error. -/
theorem C3_no_records_error_witness :
    parse_pdf_to_dataframe ([] : List PLine) = .error noRecordsMsg
    ∧ analyze_pdf [⟨none, some (5, 30, 6, 30)⟩, ⟨some (1, 1, 2025), none⟩] "Mario" 20
        = .error noRecordsMsg := by
  constructor
  · exact (C3_no_records_error.1 []).mpr (by decide)
  · exact C3_no_records_error.2.1 [⟨none, some (5, 30, 6, 30)⟩, ⟨some (1, 1, 2025), none⟩]
      "Mario" 20 (by decide)

/-! ### Aggregator lemmas -/

theorem Date.ext2 (a b : Date) (h1 : a.year = b.year) (h2 : a.month = b.month)
    (h3 : a.day = b.day) : a = b := by
  cases a
  cases b
  simp_all

theorem map_fst_pairs (l : List Date) (g : Date → ℚ) :
    (l.map (fun d => (d, g d))).map (fun p => p.1) = l := by
  induction l with
  | nil => rfl
  | cons d t ih => simp [ih]

theorem dailyTotals_fst (df : List TimeInterval) :
    (dailyTotals df).map (fun p => p.1)
      = List.insertionSort dateLe (df.map (fun r => r.date)).dedup := by
  unfold dailyTotals
  exact map_fst_pairs _ _

theorem dailyTotals_fst_nodup (df : List TimeInterval) :
    ((dailyTotals df).map (fun p => p.1)).Nodup := by
  rw [dailyTotals_fst]
  exact ((List.perm_insertionSort dateLe _).nodup_iff).mpr (List.nodup_dedup _)

theorem mem_dailyTotals_fst (df : List TimeInterval) (d : Date) :
    (d ∈ (dailyTotals df).map (fun p => p.1)) ↔ ∃ r ∈ df, r.date = d := by
  rw [dailyTotals_fst, (List.perm_insertionSort dateLe _).mem_iff, List.mem_dedup]
  simp

theorem monthKeys_nodup (daily : List (Date × ℚ)) : (monthKeys daily).Nodup := by
  unfold monthKeys
  exact ((List.perm_insertionSort ymLe _).nodup_iff).mpr (List.nodup_dedup _)

theorem monthKeys_sorted (daily : List (Date × ℚ)) :
    List.Sorted ymLe (monthKeys daily) :=
  List.sorted_insertionSort ymLe _

theorem mem_monthKeys (daily : List (Date × ℚ)) (k : Nat × Nat) :
    k ∈ monthKeys daily ↔ ∃ p ∈ daily, (p.1.year, p.1.month) = k := by
  unfold monthKeys
  rw [(List.perm_insertionSort ymLe _).mem_iff, List.mem_dedup]
  simp

theorem countP_eq_zero_unique {α : Type u} (l : List α)
    (p : α → Bool) (a : α) (hp : ∀ x, p x = true ↔ x = a) (ha : a ∉ l) :
    l.countP p = 0 := by
  rw [List.countP_eq_zero]
  intro x hx hpx
  exact ha ((hp x).mp hpx ▸ hx)

theorem countP_eq_one_unique {α : Type u} (l : List α) (hnd : l.Nodup)
    (p : α → Bool) (a : α) (hp : ∀ x, p x = true ↔ x = a) (ha : a ∈ l) :
    l.countP p = 1 := by
  induction l with
  | nil => exact absurd ha (List.not_mem_nil a)
  | cons b t ih =>
    rw [List.countP_cons]
    rw [List.nodup_cons] at hnd
    obtain ⟨hb, ht⟩ := hnd
    rcases List.mem_cons.mp ha with rfl | hat
    · rw [if_pos ((hp a).mpr rfl)]
      rw [countP_eq_zero_unique t p a hp hb]
    · have hba : ¬ p b = true := fun hpb => hb ((hp b).mp hpb ▸ hat)
      rw [if_neg hba, ih ht hat]

unseal Rat.add Rat.mul Rat.sub Rat.inv Rat.ofScientific in
/-- **C2**: every row of the monthly table satisfies the documented formulas
(`daysInMonth` from the Gregorian calendar, theoretical hours
`weekly * daysInMonth / 7`, hours worked as the sum of the month's daily
totals, overtime as the difference, average hours per worked day with a
defensive 0), and the spec's concrete January 2025 scenario evaluates as
claimed. -/
theorem C2_monthly_formulas :
    (∀ (df : List TimeInterval) (weekly_hours : ℚ) (s : MonthlyStat),
        s ∈ (compute_monthly_stats df weekly_hours).2 →
        s.days_in_month = daysInMonth s.year s.month
        ∧ s.theoretical_hours = weekly_hours * ((daysInMonth s.year s.month : ℚ) / 7)
        ∧ s.hours_worked = (((dailyTotals df).filter
            (fun p => p.1.year = s.year ∧ p.1.month = s.month)).map (fun p => p.2)).sum
        ∧ s.overtime = s.hours_worked - s.theoretical_hours
        ∧ s.avg_hours_per_day =
            (if s.days_worked > 0 then s.hours_worked / (s.days_worked : ℚ) else 0))
    ∧ (compute_monthly_stats
        [⟨⟨2025, 1, 2⟩, ⟨⟨2025, 1, 2⟩, 5, 30⟩, ⟨⟨2025, 1, 2⟩, 13, 30⟩, 8⟩,
         ⟨⟨2025, 1, 9⟩, ⟨⟨2025, 1, 9⟩, 5, 30⟩, ⟨⟨2025, 1, 9⟩, 13, 30⟩, 8⟩] 20).2
        = [{ year := 2025, month := 1, month_label := "01/2025", days_worked := 2,
             hours_worked := 16, theoretical_hours := 20 * ((31 : ℚ) / 7),
             overtime := 16 - 20 * ((31 : ℚ) / 7), avg_hours_per_day := 8,
             days_in_month := 31 }] := by
  constructor
  · intro df weekly_hours s hs
    have hs2 : s ∈ (monthKeys (dailyTotals df)).map
        (fun k => buildStat (dailyTotals df) weekly_hours k.1 k.2) := hs
    rcases List.mem_map.mp hs2 with ⟨k, hk, rfl⟩
    exact ⟨rfl, rfl, rfl, rfl, rfl⟩
  · decide

unseal Rat.add Rat.mul Rat.sub Rat.inv Rat.ofScientific in
/-- **C2** witness: the per-row formulas at the spec's January 2025 row. -/
theorem C2_monthly_formulas_witness :
    ({ year := 2025, month := 1, month_label := "01/2025", days_worked := 2,
       hours_worked := 16, theoretical_hours := 20 * ((31 : ℚ) / 7),
       overtime := 16 - 20 * ((31 : ℚ) / 7), avg_hours_per_day := 8,
       days_in_month := 31 } : MonthlyStat).days_in_month = daysInMonth 2025 1
    ∧ (20 * ((31 : ℚ) / 7) : ℚ) = 20 * ((daysInMonth 2025 1 : ℚ) / 7)
    ∧ (16 : ℚ) = (((dailyTotals
          [⟨⟨2025, 1, 2⟩, ⟨⟨2025, 1, 2⟩, 5, 30⟩, ⟨⟨2025, 1, 2⟩, 13, 30⟩, 8⟩,
           ⟨⟨2025, 1, 9⟩, ⟨⟨2025, 1, 9⟩, 5, 30⟩, ⟨⟨2025, 1, 9⟩, 13, 30⟩, 8⟩]).filter
          (fun p => p.1.year = 2025 ∧ p.1.month = 1)).map (fun p => p.2)).sum
    ∧ (16 - 20 * ((31 : ℚ) / 7) : ℚ) = 16 - 20 * ((31 : ℚ) / 7)
    ∧ (8 : ℚ) = (if 2 > 0 then (16 : ℚ) / ((2 : Nat) : ℚ) else 0) := by
  have h := C2_monthly_formulas.1
    [⟨⟨2025, 1, 2⟩, ⟨⟨2025, 1, 2⟩, 5, 30⟩, ⟨⟨2025, 1, 2⟩, 13, 30⟩, 8⟩,
     ⟨⟨2025, 1, 9⟩, ⟨⟨2025, 1, 9⟩, 5, 30⟩, ⟨⟨2025, 1, 9⟩, 13, 30⟩, 8⟩] 20
    { year := 2025, month := 1, month_label := "01/2025", days_worked := 2,
      hours_worked := 16, theoretical_hours := 20 * ((31 : ℚ) / 7),
      overtime := 16 - 20 * ((31 : ℚ) / 7), avg_hours_per_day := 8,
      days_in_month := 31 } (by decide)
  exact h

/-- **C4**: the period summary totals are the sums of the per-month figures,
and the total overtime is their difference. -/
theorem C4_period_summary_sums (df : List TimeInterval) (weekly_hours : ℚ)
    (_hne : df ≠ []) :
    (compute_monthly_stats df weekly_hours).1.total_hours_worked
        = ((compute_monthly_stats df weekly_hours).2.map (fun s => s.hours_worked)).sum
    ∧ (compute_monthly_stats df weekly_hours).1.total_theoretical_hours
        = ((compute_monthly_stats df weekly_hours).2.map (fun s => s.theoretical_hours)).sum
    ∧ (compute_monthly_stats df weekly_hours).1.total_overtime
        = (compute_monthly_stats df weekly_hours).1.total_hours_worked
          - (compute_monthly_stats df weekly_hours).1.total_theoretical_hours :=
  ⟨rfl, rfl, rfl⟩

/-- **C4** witness: the sum laws at a concrete one-interval dataset. -/
theorem C4_period_summary_sums_witness :
    ([⟨⟨2025, 1, 2⟩, ⟨⟨2025, 1, 2⟩, 5, 30⟩, ⟨⟨2025, 1, 2⟩, 13, 30⟩, 8⟩]
        : List TimeInterval) ≠ []
    ∧ ((compute_monthly_stats
          [⟨⟨2025, 1, 2⟩, ⟨⟨2025, 1, 2⟩, 5, 30⟩, ⟨⟨2025, 1, 2⟩, 13, 30⟩, 8⟩]
          20).1.total_hours_worked
        = ((compute_monthly_stats
            [⟨⟨2025, 1, 2⟩, ⟨⟨2025, 1, 2⟩, 5, 30⟩, ⟨⟨2025, 1, 2⟩, 13, 30⟩, 8⟩]
            20).2.map (fun s => s.hours_worked)).sum
      ∧ (compute_monthly_stats
          [⟨⟨2025, 1, 2⟩, ⟨⟨2025, 1, 2⟩, 5, 30⟩, ⟨⟨2025, 1, 2⟩, 13, 30⟩, 8⟩]
          20).1.total_theoretical_hours
        = ((compute_monthly_stats
            [⟨⟨2025, 1, 2⟩, ⟨⟨2025, 1, 2⟩, 5, 30⟩, ⟨⟨2025, 1, 2⟩, 13, 30⟩, 8⟩]
            20).2.map (fun s => s.theoretical_hours)).sum
      ∧ (compute_monthly_stats
          [⟨⟨2025, 1, 2⟩, ⟨⟨2025, 1, 2⟩, 5, 30⟩, ⟨⟨2025, 1, 2⟩, 13, 30⟩, 8⟩]
          20).1.total_overtime
        = (compute_monthly_stats
            [⟨⟨2025, 1, 2⟩, ⟨⟨2025, 1, 2⟩, 5, 30⟩, ⟨⟨2025, 1, 2⟩, 13, 30⟩, 8⟩]
            20).1.total_hours_worked
          - (compute_monthly_stats
              [⟨⟨2025, 1, 2⟩, ⟨⟨2025, 1, 2⟩, 5, 30⟩, ⟨⟨2025, 1, 2⟩, 13, 30⟩, 8⟩]
              20).1.total_theoretical_hours) :=
  ⟨by decide,
    C4_period_summary_sums
      [⟨⟨2025, 1, 2⟩, ⟨⟨2025, 1, 2⟩, 5, 30⟩, ⟨⟨2025, 1, 2⟩, 13, 30⟩, 8⟩]
      20 (by decide)⟩

/-- **C7**: the monthly table has exactly one row per (year, month) present
among the interval dates, the rows are in strictly increasing chronological
(year, month) order, and each row's worked-day count is at most the number
of calendar days of its month. -/
theorem C7_monthly_invariants (df : List TimeInterval) (weekly_hours : ℚ)
    (_hne : df ≠ []) (hval : ∀ r ∈ df, r.date.valid) :
    (∀ y mo : Nat,
        ((compute_monthly_stats df weekly_hours).2.countP
            (fun s => decide (s.year = y ∧ s.month = mo)))
          = if ∃ r ∈ df, r.date.year = y ∧ r.date.month = mo then 1 else 0)
    ∧ List.Pairwise
        (fun a b => a.year < b.year ∨ (a.year = b.year ∧ a.month < b.month))
        (compute_monthly_stats df weekly_hours).2
    ∧ (∀ s ∈ (compute_monthly_stats df weekly_hours).2,
        s.days_worked ≤ s.days_in_month) := by
  have hmonthly : (compute_monthly_stats df weekly_hours).2
      = (monthKeys (dailyTotals df)).map
          (fun k => buildStat (dailyTotals df) weekly_hours k.1 k.2) := rfl
  refine ⟨?_, ?_, ?_⟩
  · intro y mo
    rw [hmonthly, List.countP_map]
    have hp : ∀ x : Nat × Nat,
        ((fun s => decide (s.year = y ∧ s.month = mo)) ∘
          (fun k => buildStat (dailyTotals df) weekly_hours k.1 k.2)) x = true
        ↔ x = (y, mo) := by
      intro k
      constructor
      · intro hk2
        simp only [Function.comp, decide_eq_true_eq] at hk2
        exact Prod.ext hk2.1 hk2.2
      · rintro rfl
        simp only [Function.comp]
        exact decide_eq_true ⟨rfl, rfl⟩
    have hiff : (y, mo) ∈ monthKeys (dailyTotals df)
        ↔ ∃ r ∈ df, r.date.year = y ∧ r.date.month = mo := by
      rw [mem_monthKeys]
      constructor
      · rintro ⟨p, hp1, hp2⟩
        have := (mem_dailyTotals_fst df p.1).mp (List.mem_map_of_mem _ hp1)
        obtain ⟨r, hr, hrd⟩ := this
        rw [Prod.mk.injEq] at hp2
        exact ⟨r, hr, by rw [hrd]; exact hp2.1, by rw [hrd]; exact hp2.2⟩
      · rintro ⟨r, hr, hy, hm⟩
        have hd : r.date ∈ (dailyTotals df).map (fun p => p.1) :=
          (mem_dailyTotals_fst df r.date).mpr ⟨r, hr, rfl⟩
        rcases List.mem_map.mp hd with ⟨p, hp1, hp2⟩
        exact ⟨p, hp1, by rw [hp2, hy, hm]⟩
    by_cases hmem : (y, mo) ∈ monthKeys (dailyTotals df)
    · rw [if_pos (hiff.mp hmem)]
      exact countP_eq_one_unique (monthKeys (dailyTotals df)) (monthKeys_nodup _)
        _ (y, mo) hp hmem
    · rw [if_neg (fun hex => hmem (hiff.mpr hex))]
      exact countP_eq_zero_unique (monthKeys (dailyTotals df)) _ (y, mo) hp hmem
  · rw [hmonthly, List.pairwise_map]
    refine ((monthKeys_sorted (dailyTotals df)).and
      (monthKeys_nodup (dailyTotals df))).imp ?_
    rintro a b ⟨hle, hne⟩
    show a.1 < b.1 ∨ (a.1 = b.1 ∧ a.2 < b.2)
    rcases hle with h | ⟨h1, h2⟩
    · exact Or.inl h
    · right
      refine ⟨h1, ?_⟩
      rcases Nat.lt_or_ge a.2 b.2 with hlt | hge
      · exact hlt
      · exact absurd (Prod.ext h1 (Nat.le_antisymm h2 hge)) hne
  · intro s hs
    rw [hmonthly] at hs
    rcases List.mem_map.mp hs with ⟨k, hk, rfl⟩
    show (((dailyTotals df).filter
        (fun p => p.1.year = k.1 ∧ p.1.month = k.2)).map
          (fun p => p.1)).dedup.length ≤ daysInMonth k.1 k.2
    have hnodup : (((dailyTotals df).filter
        (fun p => p.1.year = k.1 ∧ p.1.month = k.2)).map (fun p => p.1)).Nodup :=
      (dailyTotals_fst_nodup df).sublist
        (List.Sublist.map (fun p => p.1) (List.filter_sublist (dailyTotals df)))
    rw [List.dedup_eq_self.mpr hnodup]
    have hb : ∀ d ∈ ((dailyTotals df).filter
        (fun p => p.1.year = k.1 ∧ p.1.month = k.2)).map (fun p => p.1),
        d.year = k.1 ∧ d.month = k.2 ∧ 1 ≤ d.day ∧ d.day ≤ daysInMonth k.1 k.2 := by
      intro d hd
      rcases List.mem_map.mp hd with ⟨p, hp, rfl⟩
      rw [List.mem_filter] at hp
      obtain ⟨hp1, hp2⟩ := hp
      rw [decide_eq_true_eq] at hp2
      obtain ⟨hy, hm⟩ := hp2
      have := (mem_dailyTotals_fst df p.1).mp (List.mem_map_of_mem _ hp1)
      obtain ⟨r, hr, hrd⟩ := this
      have hv := hval r hr
      rw [hrd] at hv
      obtain ⟨-, -, -, -, hd1, hd2⟩ := hv
      rw [hy, hm] at hd2
      exact ⟨hy, hm, hd1, hd2⟩
    have hndays : ((((dailyTotals df).filter
        (fun p => p.1.year = k.1 ∧ p.1.month = k.2)).map
          (fun p => p.1)).map (fun d => d.day)).Nodup := by
      refine List.Nodup.map_on ?_ hnodup
      intro x hx z hz hxz
      obtain ⟨hx1, hx2, -, -⟩ := hb x hx
      obtain ⟨hz1, hz2, -, -⟩ := hb z hz
      exact Date.ext2 x z (hx1.trans hz1.symm) (hx2.trans hz2.symm) hxz
    have hsub : ((((dailyTotals df).filter
        (fun p => p.1.year = k.1 ∧ p.1.month = k.2)).map
          (fun p => p.1)).map (fun d => d.day)).toFinset
        ⊆ Finset.Icc 1 (daysInMonth k.1 k.2) := by
      intro x hx
      rw [List.mem_toFinset, List.mem_map] at hx
      obtain ⟨d, hd, rfl⟩ := hx
      rw [Finset.mem_Icc]
      exact ⟨(hb d hd).2.2.1, (hb d hd).2.2.2⟩
    have hcard := Finset.card_le_card hsub
    rw [List.toFinset_card_of_nodup hndays, Nat.card_Icc, List.length_map] at hcard
    omega

/-- **C7** witness: the invariants at a concrete one-interval dataset. -/
theorem C7_monthly_invariants_witness :
    (∀ y mo : Nat,
        ((compute_monthly_stats
            [⟨⟨2025, 1, 2⟩, ⟨⟨2025, 1, 2⟩, 5, 30⟩, ⟨⟨2025, 1, 2⟩, 13, 30⟩, 8⟩]
            20).2.countP (fun s => decide (s.year = y ∧ s.month = mo)))
          = if ∃ r ∈ ([⟨⟨2025, 1, 2⟩, ⟨⟨2025, 1, 2⟩, 5, 30⟩, ⟨⟨2025, 1, 2⟩, 13, 30⟩, 8⟩]
                : List TimeInterval), r.date.year = y ∧ r.date.month = mo then 1 else 0)
    ∧ List.Pairwise
        (fun a b => a.year < b.year ∨ (a.year = b.year ∧ a.month < b.month))
        (compute_monthly_stats
          [⟨⟨2025, 1, 2⟩, ⟨⟨2025, 1, 2⟩, 5, 30⟩, ⟨⟨2025, 1, 2⟩, 13, 30⟩, 8⟩] 20).2
    ∧ (∀ s ∈ (compute_monthly_stats
          [⟨⟨2025, 1, 2⟩, ⟨⟨2025, 1, 2⟩, 5, 30⟩, ⟨⟨2025, 1, 2⟩, 13, 30⟩, 8⟩] 20).2,
        s.days_worked ≤ s.days_in_month) :=
  C7_monthly_invariants
    [⟨⟨2025, 1, 2⟩, ⟨⟨2025, 1, 2⟩, 5, 30⟩, ⟨⟨2025, 1, 2⟩, 13, 30⟩, 8⟩]
    20 (by decide) (by decide)

/-! ### String order and merge lemmas -/

theorem charListLt_asymm : ∀ (a b : List Char),
    charListLt a b = true → charListLt b a = false
  | [], [] => by simp [charListLt]
  | [], _ :: _ => by simp [charListLt]
  | _ :: _, [] => by simp [charListLt]
  | a :: as, b :: bs => by
    intro h
    simp only [charListLt] at h ⊢
    by_cases h1 : a.toNat < b.toNat
    · have h2 : ¬ b.toNat < a.toNat := by omega
      simp [h1, h2]
    · by_cases h2 : b.toNat < a.toNat
      · simp [h1, h2] at h
      · simp only [if_neg h1, if_neg h2] at h
        simp only [if_neg h2, if_neg h1]
        exact charListLt_asymm as bs h

theorem charListLt_trans_false : ∀ (a b c : List Char),
    charListLt b a = false → charListLt c b = false → charListLt c a = false
  | a, [], c => by
    intro h1 h2
    cases a with
    | nil => exact h2
    | cons a0 as => simp [charListLt] at h1
  | a, b0 :: bs, c => by
    intro h1 h2
    cases c with
    | nil => simp [charListLt] at h2
    | cons c0 cs =>
      cases a with
      | nil => simp [charListLt]
      | cons a0 as =>
        simp only [charListLt] at h1 h2 ⊢
        by_cases hba : b0.toNat < a0.toNat
        · simp [hba] at h1
        · by_cases hcb : c0.toNat < b0.toNat
          · simp [hcb] at h2
          · have hca : ¬ c0.toNat < a0.toNat := by omega
            rw [if_neg hca]
            by_cases hac : a0.toNat < c0.toNat
            · rw [if_pos hac]
            · rw [if_neg hac]
              have hab : ¬ a0.toNat < b0.toNat := by omega
              have hbc : ¬ b0.toNat < c0.toNat := by omega
              rw [if_neg hba, if_neg hab] at h1
              rw [if_neg hcb, if_neg hbc] at h2
              exact charListLt_trans_false as bs cs h1 h2

instance : IsTotal String strLe :=
  ⟨fun a b => by
    unfold strLe
    cases hx : charListLt b.data a.data with
    | false => exact Or.inl rfl
    | true => exact Or.inr (charListLt_asymm b.data a.data hx)⟩

instance : IsTrans String strLe :=
  ⟨fun a b c h1 h2 => charListLt_trans_false a.data b.data c.data h1 h2⟩

theorem lookup_eq_none {k : String} : ∀ (l : List (String × ℚ)),
    (∀ p ∈ l, p.1 ≠ k) → List.lookup k l = none
  | [], _ => rfl
  | (k1, v1) :: rest, h => by
    have hne : (k == k1) = false := by
      rw [beq_eq_false_iff_ne]
      exact fun he => h (k1, v1) (List.mem_cons_self _ _) he.symm
    simp only [List.lookup, hne]
    exact lookup_eq_none rest (fun p hp => h p (List.mem_cons_of_mem _ hp))

theorem lookup_eq_some_of_nodup {k : String} {v : ℚ} : ∀ (l : List (String × ℚ)),
    (l.map (fun p => p.1)).Nodup → (k, v) ∈ l → List.lookup k l = some v
  | [], _, hm => absurd hm (List.not_mem_nil _)
  | (k1, v1) :: rest, hnd, hm => by
    rw [List.map_cons, List.nodup_cons] at hnd
    obtain ⟨hk1, hrest⟩ := hnd
    rcases List.mem_cons.mp hm with he | hm2
    · rw [Prod.mk.injEq] at he
      obtain ⟨he1, he2⟩ := he
      subst he1
      subst he2
      simp [List.lookup]
    · have hne : (k == k1) = false := by
        rw [beq_eq_false_iff_ne]
        intro he
        subst he
        exact hk1 (by
          rw [List.mem_map]
          exact ⟨(k, v), hm2, rfl⟩)
      simp only [List.lookup, hne]
      exact lookup_eq_some_of_nodup rest hrest hm2

theorem dictGet_eq_of_mem (l : List (String × ℚ)) (k : String) (v : ℚ)
    (hnd : (l.map (fun p => p.1)).Nodup) (hm : (k, v) ∈ l) :
    dictGet l k = v := by
  have h2 : (l.reverse.map (fun p => p.1)).Nodup := by
    rw [List.map_reverse]
    exact List.nodup_reverse.mpr hnd
  unfold dictGet
  rw [lookup_eq_some_of_nodup l.reverse h2 (List.mem_reverse.mpr hm)]
  rfl

theorem dictGet_eq_zero (l : List (String × ℚ)) (k : String)
    (h : ∀ p ∈ l, p.1 ≠ k) : dictGet l k = 0 := by
  unfold dictGet
  rw [lookup_eq_none l.reverse (fun p hp => h p (List.mem_reverse.mp hp))]
  rfl

theorem map_fst_pairs2 {α : Type u} (l : List α) (f : α → String) (g : α → ℚ) :
    (l.map (fun r => (f r, g r))).map (fun p => p.1) = l.map f := by
  induction l with
  | nil => rfl
  | cons x t ih => simp [ih]

/-- **C8**: the merged month-label list is exactly the set union of the two
tables' labels, each label exactly once, sorted by Python string order; a
label absent from one employee's table looks up to 0 in that employee's
hours/overtime dictionaries, and a label present looks up to that row's
values unchanged. -/
theorem C8_comparison_merge (df1 df2 : List MonthlyStat)
    (hnd1 : (df1.map (fun r => r.month_label)).Nodup)
    (hnd2 : (df2.map (fun r => r.month_label)).Nodup) :
    (∀ lab : String, lab ∈ (merge_monthly_data df1 df2).1
        ↔ ((∃ r ∈ df1, r.month_label = lab) ∨ (∃ r ∈ df2, r.month_label = lab)))
    ∧ (∀ lab ∈ (merge_monthly_data df1 df2).1,
        (merge_monthly_data df1 df2).1.count lab = 1)
    ∧ List.Sorted strLe (merge_monthly_data df1 df2).1
    ∧ (∀ lab : String, (∀ r ∈ df1, r.month_label ≠ lab) →
        dictGet (merge_monthly_data df1 df2).2.1 lab = 0
        ∧ dictGet (merge_monthly_data df1 df2).2.2.1 lab = 0)
    ∧ (∀ r ∈ df1,
        dictGet (merge_monthly_data df1 df2).2.1 r.month_label = r.hours_worked
        ∧ dictGet (merge_monthly_data df1 df2).2.2.1 r.month_label = r.overtime)
    ∧ (∀ lab : String, (∀ r ∈ df2, r.month_label ≠ lab) →
        dictGet (merge_monthly_data df1 df2).2.2.2.1 lab = 0
        ∧ dictGet (merge_monthly_data df1 df2).2.2.2.2 lab = 0)
    ∧ (∀ r ∈ df2,
        dictGet (merge_monthly_data df1 df2).2.2.2.1 r.month_label = r.hours_worked
        ∧ dictGet (merge_monthly_data df1 df2).2.2.2.2 r.month_label = r.overtime) := by
  have hlab : (merge_monthly_data df1 df2).1
      = List.insertionSort strLe
          ((df1.map (fun r => r.month_label) ++ df2.map (fun r => r.month_label)).dedup) := rfl
  refine ⟨?_, ?_, ?_, ?_, ?_, ?_, ?_⟩
  · intro lab
    rw [hlab, (List.perm_insertionSort strLe _).mem_iff, List.mem_dedup,
      List.mem_append]
    simp
  · intro lab hmem
    rw [hlab] at hmem ⊢
    rw [(List.perm_insertionSort strLe _).mem_iff] at hmem
    rw [(List.perm_insertionSort strLe _).count_eq]
    exact List.count_eq_one_of_mem (List.nodup_dedup _) hmem
  · rw [hlab]
    exact List.sorted_insertionSort strLe _
  · intro lab habs
    constructor
    · refine dictGet_eq_zero _ lab ?_
      intro p hp
      rcases List.mem_map.mp hp with ⟨r, hr, rfl⟩
      exact habs r hr
    · refine dictGet_eq_zero _ lab ?_
      intro p hp
      rcases List.mem_map.mp hp with ⟨r, hr, rfl⟩
      exact habs r hr
  · intro r hr
    constructor
    · refine dictGet_eq_of_mem _ _ _ ?_ (List.mem_map_of_mem _ hr)
      show ((df1.map (fun r => (r.month_label, r.hours_worked))).map (fun p => p.1)).Nodup
      rw [map_fst_pairs2]
      exact hnd1
    · refine dictGet_eq_of_mem _ _ _ ?_ (List.mem_map_of_mem _ hr)
      show ((df1.map (fun r => (r.month_label, r.overtime))).map (fun p => p.1)).Nodup
      rw [map_fst_pairs2]
      exact hnd1
  · intro lab habs
    constructor
    · refine dictGet_eq_zero _ lab ?_
      intro p hp
      rcases List.mem_map.mp hp with ⟨r, hr, rfl⟩
      exact habs r hr
    · refine dictGet_eq_zero _ lab ?_
      intro p hp
      rcases List.mem_map.mp hp with ⟨r, hr, rfl⟩
      exact habs r hr
  · intro r hr
    constructor
    · refine dictGet_eq_of_mem _ _ _ ?_ (List.mem_map_of_mem _ hr)
      show ((df2.map (fun r => (r.month_label, r.hours_worked))).map (fun p => p.1)).Nodup
      rw [map_fst_pairs2]
      exact hnd2
    · refine dictGet_eq_of_mem _ _ _ ?_ (List.mem_map_of_mem _ hr)
      show ((df2.map (fun r => (r.month_label, r.overtime))).map (fun p => p.1)).Nodup
      rw [map_fst_pairs2]
      exact hnd2

unseal Rat.add Rat.mul Rat.sub Rat.inv Rat.ofScientific in
/-- **C8** witness: employee A has 01/2025 with 10 h worked, employee B has
no data at all — the merged view reports A = 10 h and B = 0 h for that
label. -/
theorem C8_comparison_merge_witness :
    dictGet (merge_monthly_data
        [{ year := 2025, month := 1, month_label := "01/2025", days_worked := 1,
           hours_worked := 10, theoretical_hours := 5, overtime := 5,
           avg_hours_per_day := 10, days_in_month := 31 }] []).2.2.2.1 "01/2025" = 0
    ∧ dictGet (merge_monthly_data
        [{ year := 2025, month := 1, month_label := "01/2025", days_worked := 1,
           hours_worked := 10, theoretical_hours := 5, overtime := 5,
           avg_hours_per_day := 10, days_in_month := 31 }] []).2.1 "01/2025" = 10 := by
  have h := C8_comparison_merge
    [{ year := 2025, month := 1, month_label := "01/2025", days_worked := 1,
       hours_worked := 10, theoretical_hours := 5, overtime := 5,
       avg_hours_per_day := 10, days_in_month := 31 }] [] (by decide) (by decide)
  refine ⟨(h.2.2.2.2.2.1 "01/2025" ?_).1, ?_⟩
  · intro r hr
    exact absurd hr (List.not_mem_nil r)
  · exact (h.2.2.2.2.1 _ (List.mem_cons_self _ _)).1

/-! ### Slug lemmas -/

theorem regexSubAux_safe : ∀ (flag : Bool) (l : List Char),
    ∀ c ∈ regexSubAux flag l, isSafeChar c = true
  | _, [] => by simp [regexSubAux]
  | flag, c0 :: cs => by
    intro c hc
    simp only [regexSubAux] at hc
    by_cases hs : isSafeChar c0 = true
    · rw [if_pos hs] at hc
      rcases List.mem_cons.mp hc with rfl | hc2
      · exact hs
      · exact regexSubAux_safe false cs c hc2
    · rw [if_neg hs] at hc
      by_cases hf : flag = true
      · rw [if_pos hf] at hc
        exact regexSubAux_safe true cs c hc
      · rw [if_neg hf] at hc
        rcases List.mem_cons.mp hc with rfl | hc2
        · decide
        · exact regexSubAux_safe true cs c hc2

theorem mem_pyStrip {c : Char} {l : List Char} (h : c ∈ pyStrip l) : c ∈ l := by
  unfold pyStrip at h
  rw [List.mem_reverse] at h
  have h2 := List.Sublist.mem h (List.dropWhile_sublist _)
  rw [List.mem_reverse] at h2
  exact List.Sublist.mem h2 (List.dropWhile_sublist _)

theorem pyIsAlnum_ascii (c : Char) (ha : c.toNat < 128) (h : pyIsAlnum c = true) :
    isSafeChar c = true := by
  simp only [pyIsAlnum, Bool.or_eq_true, Bool.and_eq_true, decide_eq_true_eq] at h
  simp only [isSafeChar, Bool.or_eq_true, Bool.and_eq_true, decide_eq_true_eq]
  omega

theorem strip_all_space {l : List Char} (h : ∀ c ∈ l, pyIsSpace c = true) :
    pyStrip l = [] := by
  unfold pyStrip
  rw [List.dropWhile_eq_nil_iff.mpr h]
  rfl

/-- **C9** (amended): the single-employee regex rule keeps every name's slug
inside [A-Za-z0-9_-]; the comparison rule guarantees this for names of ASCII
characters (its Unicode `isalnum` lets non-ASCII letters through, see the
counterexample); an empty or all-whitespace name becomes the fixed
placeholder "dipendente" under both rules; and these slugs are what the two
artifact filename rules embed. -/
theorem C9_slug_safety :
    (∀ name : String, ∀ c ∈ (safeName name).data, isSafeChar c = true)
    ∧ (∀ name : String, (∀ c ∈ name.data, c.toNat < 128) →
        ∀ c ∈ (slugify_name name).data, isSafeChar c = true)
    ∧ (∀ name : String, (∀ c ∈ name.data, pyIsSpace c = true) →
        safeName name = "dipendente" ∧ slugify_name name = "dipendente")
    ∧ (∀ (name : String) (s : Summary), report_filename name s
        = "Report_" ++ safeName name ++ "_" ++ periodTag s.period_label ++ ".pdf")
    ∧ (∀ name1 name2 : String, build_comparison_filename name1 name2
        = "Confronto_" ++ slugify_name name1 ++ "_vs_" ++ slugify_name name2 ++ ".pdf") := by
  refine ⟨?_, ?_, ?_, fun _ _ => rfl, fun _ _ => rfl⟩
  · intro name
    unfold safeName
    by_cases he : (regexSub (pyStrip name.data)).isEmpty
    · rw [if_pos he]
      intro c hc
      exact (by decide : ∀ c ∈ ("dipendente" : String).data, isSafeChar c = true) c hc
    · rw [if_neg he]
      intro c hc
      exact regexSubAux_safe false (pyStrip name.data) c hc
  · intro name ha
    unfold slugify_name
    by_cases he : ((pyStrip name.data).map
        (fun c => if pyIsAlnum c || c = '_' || c = '-' then c else '_')).isEmpty
    · rw [if_pos he]
      intro c hc
      exact (by decide : ∀ c ∈ ("dipendente" : String).data, isSafeChar c = true) c hc
    · rw [if_neg he]
      intro c hc
      rcases List.mem_map.mp hc with ⟨c0, hc0, rfl⟩
      by_cases hk : (pyIsAlnum c0 || c0 = '_' || c0 = '-') = true
      · rw [if_pos hk]
        simp only [Bool.or_eq_true, decide_eq_true_eq] at hk
        rcases hk with (halnum | h_) | hdash
        · exact pyIsAlnum_ascii c0 (ha c0 (mem_pyStrip hc0)) halnum
        · rw [h_]
          decide
        · rw [hdash]
          decide
      · rw [if_neg hk]
        decide
  · intro name h
    constructor
    · unfold safeName
      rw [strip_all_space h]
      rfl
    · unfold slugify_name
      rw [strip_all_space h]
      rfl

/-- **C9** witness: the spec's name with punctuation slugs safely under the
regex rule, an ASCII name slugs safely under the comparison rule, and
all-whitespace names become "dipendente" under both. -/
theorem C9_slug_safety_witness :
    (∀ c ∈ (safeName "Mario O\x27Brien!").data, isSafeChar c = true)
    ∧ (∀ c ∈ (slugify_name "Ann-Li_9").data, isSafeChar c = true)
    ∧ safeName "  " = "dipendente" ∧ slugify_name "  " = "dipendente" :=
  ⟨C9_slug_safety.1 "Mario O\x27Brien!",
    C9_slug_safety.2.1 "Ann-Li_9" (by decide),
    (C9_slug_safety.2.2.1 "  " (by decide)).1,
    (C9_slug_safety.2.2.1 "  " (by decide)).2⟩

/-- **C9** counterexample: the comparison slug keeps the letter U+00E0
(Python `str.isalnum` is true for it) although it is outside [A-Za-z0-9_-],
and it propagates into the comparison artifact filename. -/
theorem C9_counterexample :
    slugify_name "\xe0" = "\xe0"
    ∧ isSafeChar '\xe0' = false
    ∧ '\xe0' ∈ (build_comparison_filename "\xe0" "B").data := by
  exact ⟨by decide, by decide, by decide⟩

unseal Rat.add Rat.mul Rat.sub Rat.inv Rat.ofScientific in
/-- **C10**: the merged month-label list is sorted as strings, not
chronologically: across the 2024/2025 year boundary the later month
"01/2025" is listed before the earlier month "12/2024". -/
theorem C10_label_sort_lexicographic :
    (merge_monthly_data
        (compute_monthly_stats
          [⟨⟨2024, 12, 5⟩, ⟨⟨2024, 12, 5⟩, 8, 0⟩, ⟨⟨2024, 12, 5⟩, 16, 0⟩, 8⟩] 40).2
        (compute_monthly_stats
          [⟨⟨2025, 1, 10⟩, ⟨⟨2025, 1, 10⟩, 8, 0⟩, ⟨⟨2025, 1, 10⟩, 16, 0⟩, 8⟩] 40).2).1
      = ["01/2025", "12/2024"]
    ∧ ymLe (2024, 12) (2025, 1) ∧ (2024, 12) ≠ ((2025, 1) : Nat × Nat) := by
  exact ⟨by decide, by decide, by decide⟩

end Statmaster
